import Mathlib

/-!
Shallow embedding of the sandbox-mcp code execution server, and proofs of the
spec claims about it. Each definition is translated from the Python source
(files named in the section headers); state-passing replaces mutation,
association lists replace Python dicts (insertion order preserved, first
occurrence wins on lookup, matching CPython dict semantics), and effectful
steps (file-system writes, downloads, kernel interrupts) are made observable
by recording them in explicit trace fields.
-/

namespace SandboxMcp

/-! ## Association-list dictionaries (CPython `dict` semantics) -/

/-- Lookup in an association list: first entry with the key, as `dict.get`. -/
def dictLookup {α : Type} (m : List (String × α)) (k : String) : Option α :=
  match m with
  | [] => none
  | (k0, v0) :: rest => if k0 = k then some v0 else dictLookup rest k

/-- Assignment `m[k] = v`: replace in place if the key is present (CPython
keeps the original position), else append at the end. -/
def dictInsert {α : Type} (m : List (String × α)) (k : String) (v : α) :
    List (String × α) :=
  match m with
  | [] => [(k, v)]
  | (k0, v0) :: rest => if k0 = k then (k, v) :: rest else (k0, v0) :: dictInsert rest k v

/-- Removal `m.pop(k)`: drop the first entry with the key. -/
def dictRemove {α : Type} (m : List (String × α)) (k : String) : List (String × α) :=
  match m with
  | [] => []
  | (k0, v0) :: rest => if k0 = k then rest else (k0, v0) :: dictRemove rest k

/-- The keys of the dictionary are pairwise distinct (always true of a list
that arose from a CPython dict). -/
def keysNodup {α : Type} (m : List (String × α)) : Prop :=
  (m.map Prod.fst).Nodup

instance {α : Type} (m : List (String × α)) : Decidable (keysNodup m) := by
  unfold keysNodup; infer_instance

/-! ## Execution timeout selection

Source: `src/services/kernel_manager.py` line 358 and
`src/sandbox_mcp/api.py` line 95, both reading
`timeout or settings.max_execution_time` where `timeout : Optional[int]`.
Python truthiness: `None` and `0` are falsy, every other int is truthy. -/

/-- The effective per-execution timeout, as computed by the expression
`timeout or settings.max_execution_time`. -/
def executionTimeoutOf (timeout : Option Int) (maxExecutionTime : Int) : Int :=
  match timeout with
  | none => maxExecutionTime
  | some t => if t = 0 then maxExecutionTime else t

/-! ## Worker messages and the gateway translation

Source: `src/schema/models.py` (MessageType, StreamMessage) and
`src/sandbox_mcp/api.py` lines 194-231 (`_process_message`). A message
content dict is embedded as a record of the optional keys that the code
reads, plus the `data` mime map of display/result messages. -/

/-- Message kinds of `MessageType` in `models.py`. -/
inductive MessageType where
  | stream
  | displayData
  | error
  | status
  | executeResult
  | executeInput
deriving DecidableEq, Repr

/-- The fields of a worker message `content` dict that the code reads.
`data` embeds `content.get('data', {})` (absent key = empty map). -/
structure MsgContent where
  text : Option String := none
  name : Option String := none
  data : List (String × String) := []
  ename : Option String := none
  evalue : Option String := none
  traceback : Option (List String) := none
  executionState : Option String := none
  errorMsg : Option String := none
deriving DecidableEq, Repr

/-- A `StreamMessage` as produced by the kernel manager. -/
structure StreamMsg where
  type : MessageType
  content : MsgContent
deriving DecidableEq, Repr

/-- Client-visible output events (TextOutput / ImageOutput / ErrorOutput). -/
inductive OutputEvent where
  | textOut (text : String)
  | imageOut (image : String) (format : String)
  | errorOut (error : String) (traceback : List String)
deriving DecidableEq, Repr

/-- Translation of one worker message into a client-visible output event,
from `_process_message` in `src/sandbox_mcp/api.py` lines 194-231. Note the
branch order: `display_data` checks `image/png` before `text/plain`, while
`execute_result` checks `text/plain` before `image/png`. -/
def processMessage (t : MessageType) (c : MsgContent) : Option OutputEvent :=
  match t with
  | .stream =>
    match c.text with
    | some s => some (.textOut s)
    | none => none
  | .displayData =>
    match dictLookup c.data "image/png" with
    | some png => some (.imageOut png "png")
    | none =>
      match dictLookup c.data "text/plain" with
      | some s => some (.textOut s)
      | none => none
  | .executeResult =>
    match dictLookup c.data "text/plain" with
    | some s => some (.textOut s)
    | none =>
      match dictLookup c.data "image/png" with
      | some png => some (.imageOut png "png")
      | none => none
  | .error =>
    let tb := c.traceback.getD []
    let msg := if tb.isEmpty then c.evalue.getD "Unknown error" else String.intercalate "\n" tb
    some (.errorOut msg tb)
  | .status => none
  | .executeInput => none

/-! ## The execution loops

Source: `src/services/kernel_manager.py` lines 360-412 (`execute_code`, the
streaming manager loop) and `src/sandbox_mcp/api.py` lines 93-122 (the
`execute_code_sync` inline loop). Both poll `get_iopub_msg` with a 1-second
budget; a poll either yields a worker message or raises
`asyncio.TimeoutError` (a tick). Each poll outcome is stamped with the value
of `time.time() - start_time` observed at the following checks. -/

/-- One poll outcome of the iopub channel. -/
inductive PollItem where
  | msg (t : MessageType) (c : MsgContent)
  | tick
deriving DecidableEq, Repr

/-- The error `StreamMessage` yielded by `execute_code` on timeout
(`src/services/kernel_manager.py` lines 393-398 and 405-410): its content
dict is `{"error": "Execution timeout"}`. -/
def timeoutStreamMsg : StreamMsg :=
  { type := .error, content := { errorMsg := some "Execution timeout" } }

/-- Whether a message is the terminating `status`/`idle` message. -/
def isIdleStatus (t : MessageType) (c : MsgContent) : Bool :=
  t = .status && c.executionState = some "idle"

/-- The manager streaming loop of `execute_code` over a finite poll trace,
returning the `StreamMessage`s yielded. On each received message it yields
the message, then breaks on idle status, then breaks with the timeout error
message if the deadline has passed; on a tick it breaks with the timeout
error message if the deadline has passed, else continues. -/
def execLoop (executionTimeout : Int) : List (PollItem × Int) → List StreamMsg
  | [] => []
  | (item, elapsed) :: rest =>
    match item with
    | .msg t c =>
      ⟨t, c⟩ ::
        (if isIdleStatus t c then []
         else if elapsed > executionTimeout then [timeoutStreamMsg]
         else execLoop executionTimeout rest)
    | .tick =>
      if elapsed > executionTimeout then [timeoutStreamMsg]
      else execLoop executionTimeout rest

/-- The client-visible NDJSON events of the streaming `/execute` surface:
`stream_results` in `api.py` maps `_process_message` over the manager's
messages and drops empty translations. -/
def streamSurfaceEvents (executionTimeout : Int) (trace : List (PollItem × Int)) :
    List OutputEvent :=
  (execLoop executionTimeout trace).filterMap (fun m => processMessage m.type m.content)

/-- The `execute_code_sync` collection loop (`api.py` lines 96-122): each
received message is translated and appended, then the loop breaks on idle
status or on a passed deadline; a tick with a passed deadline breaks the
loop WITHOUT appending anything. The collected outputs are returned. -/
def syncLoopOutputs (executionTimeout : Int) : List (PollItem × Int) → List OutputEvent
  | [] => []
  | (item, elapsed) :: rest =>
    match item with
    | .msg t c =>
      let outs := (processMessage t c).toList
      if isIdleStatus t c then outs
      else if elapsed > executionTimeout then outs
      else outs ++ syncLoopOutputs executionTimeout rest
    | .tick =>
      if elapsed > executionTimeout then []
      else syncLoopOutputs executionTimeout rest

/-! ## Manifest persistence

Source: `src/config/session_config.py`. The persisted document is the
file-id map itself (abstracting the `json.dump` serialization); each write
the code performs is recorded as a trace of file-system operations. -/

/-- File-system operations a manifest save could perform. -/
inductive FsOp where
  | makedirs (dir : String)
  | writeFile (path : String) (doc : List (String × String))
  | rename (src : String) (dst : String)
deriving DecidableEq, Repr

/-- `CONFIG_FILENAME` constant of `session_config.py`. -/
def CONFIG_FILENAME : String := ".session_files.json"

/-- `os.path.join(session_dir, CONFIG_FILENAME)`. -/
def configPath (sessionDir : String) : String :=
  sessionDir ++ "/" ++ CONFIG_FILENAME

/-- The operations performed by `SessionFileConfig._save_config` (lines
40-48): `os.makedirs(session_dir, exist_ok=True)` followed by opening the
config path for writing and dumping the whole document into it. -/
def saveConfigOps (sessionDir : String) (doc : List (String × String)) : List FsOp :=
  [FsOp.makedirs sessionDir, FsOp.writeFile (configPath sessionDir) doc]

/-- In-memory state of a `SessionFileConfig`. -/
structure SessionFileConfig where
  sessionDir : String
  config : List (String × String)
deriving DecidableEq, Repr

/-- `add_file`: set the entry, then persist; returns the new state and the
trace of file-system operations performed. -/
def addFile (c : SessionFileConfig) (fileId filename : String) :
    SessionFileConfig × List FsOp :=
  let cfg := dictInsert c.config fileId filename
  ({ c with config := cfg }, saveConfigOps c.sessionDir cfg)

/-- `remove_file`: pop the entry and persist when present, else no-op. -/
def removeFile (c : SessionFileConfig) (fileId : String) :
    SessionFileConfig × List FsOp :=
  if (dictLookup c.config fileId).isSome then
    let cfg := dictRemove c.config fileId
    ({ c with config := cfg }, saveConfigOps c.sessionDir cfg)
  else (c, [])

/-- `clear_all_files`: clear the map and persist. -/
def clearAllFiles (c : SessionFileConfig) : SessionFileConfig × List FsOp :=
  ({ c with config := [] }, saveConfigOps c.sessionDir [])

/-- An operation trace rewrites `path` atomically in the
write-temp-then-rename sense: after any prefix of operations, it writes the
full document to a distinct temporary path and finishes by renaming that
temporary over `path`. -/
def atomicReplacePattern (ops : List FsOp) (path : String) : Prop :=
  ∃ pre tmp doc, tmp ≠ path ∧
    ops = pre ++ [FsOp.writeFile tmp doc, FsOp.rename tmp path]

/-! ## Downloader

Source: `src/utils/file_utils.py`. The two `re.search` calls of
`_extract_filename_from_content_disposition` are embedded as explicit
leftmost-match searches with the same backtracking behaviour; both patterns
run under `re.IGNORECASE` (ASCII case folding via `Char.toLower`, which is
what the headers in play use). `urllib.parse.unquote` is embedded as ASCII
percent-decoding. -/

/-- An apostrophe character, written by code point. -/
def squote : Char := Char.ofNat 39

/-- The RFC 5987 charset marker, the literal between the two apostrophes
being `UTF-8`. -/
def utf8Marker : String := "UTF-8" ++ squote.toString ++ squote.toString

/-- Match a literal pattern case-insensitively at the head of the input,
returning the rest of the input on success. -/
def matchCI : List Char → List Char → Option (List Char)
  | [], s => some s
  | _ :: _, [] => none
  | p :: ps, c :: cs => if c.toLower = p.toLower then matchCI ps cs else none

/-- Hex digit value, for percent-decoding. -/
def hexVal (c : Char) : Option Nat :=
  if c.val ≥ 48 && c.val ≤ 57 then some (c.toNat - 48)
  else if c.val ≥ 97 && c.val ≤ 102 then some (c.toNat - 87)
  else if c.val ≥ 65 && c.val ≤ 70 then some (c.toNat - 55)
  else none

/-- ASCII percent-decoding (the behaviour of `urllib.parse.unquote` on
ASCII-only percent-escapes: a `%` followed by two hex digits decodes to the
byte value, anything else is kept as-is). -/
def percentDecode : List Char → List Char
  | [] => []
  | '%' :: a :: b :: rest =>
    match hexVal a, hexVal b with
    | some ha, some hb => Char.ofNat (16 * ha + hb) :: percentDecode rest
    | _, _ => '%' :: percentDecode (a :: b :: rest)
  | c :: rest => c :: percentDecode rest

/-- Attempt the pattern `filename\*=(?:UTF-8'')?([^;]+)` at the head of the
input: literal `filename*=`, then greedily the optional charset marker, then
a non-empty run of non-semicolon characters (backtracking over the optional
marker exactly as the regex engine does). -/
def starCaptureAt (s : List Char) : Option (List Char) :=
  match matchCI "filename*=".toList s with
  | none => none
  | some rest =>
    match matchCI utf8Marker.toList rest with
    | some rest2 =>
      let cap := rest2.takeWhile (fun c => c ≠ ';')
      if cap.isEmpty then
        let cap2 := rest.takeWhile (fun c => c ≠ ';')
        if cap2.isEmpty then none else some cap2
      else some cap
    | none =>
      let cap := rest.takeWhile (fun c => c ≠ ';')
      if cap.isEmpty then none else some cap

/-- Leftmost-match search for the `filename*` pattern, as `re.search`. -/
def searchStar : List Char → Option (List Char)
  | [] => none
  | c :: cs =>
    match starCaptureAt (c :: cs) with
    | some cap => some cap
    | none => searchStar cs

/-- Characters admitted by the capture group of
`filename="?([^"\s;]+)"?`: anything but a double quote, ASCII whitespace,
or a semicolon. -/
def isPlainNameChar (c : Char) : Bool :=
  !(c = '"' || c = ';' || c = ' ' || c = '\t' || c = '\n' || c = '\r' ||
    c = Char.ofNat 11 || c = Char.ofNat 12)

/-- Attempt the pattern `filename="?([^"\s;]+)"?` at the head of the input:
literal `filename=`, greedy optional opening quote, then a non-empty run of
name characters (if the opening quote is consumed but no name character
follows, backtracking to the unquoted alternative also fails, because the
quote itself is not a name character); the trailing optional quote always
matches. -/
def plainCaptureAt (s : List Char) : Option (List Char) :=
  match matchCI "filename=".toList s with
  | none => none
  | some rest =>
    match rest with
    | '"' :: rest2 =>
      let cap := rest2.takeWhile isPlainNameChar
      if cap.isEmpty then none else some cap
    | _ =>
      let cap := rest.takeWhile isPlainNameChar
      if cap.isEmpty then none else some cap

/-- Leftmost-match search for the plain `filename` pattern. -/
def searchPlain : List Char → Option (List Char)
  | [] => none
  | c :: cs =>
    match plainCaptureAt (c :: cs) with
    | some cap => some cap
    | none => searchPlain cs

/-- `_extract_filename_from_content_disposition` (file_utils.py lines
15-39): `filename*` (percent-decoded) first, then plain `filename`, else
nothing. A missing or empty header value yields nothing. -/
def extractFilenameFromContentDisposition (cd : Option String) : Option String :=
  match cd with
  | none => none
  | some s =>
    if s.isEmpty then none
    else
      match searchStar s.toList with
      | some cap => some (String.mk (percentDecode cap))
      | none =>
        match searchPlain s.toList with
        | some cap => some (String.mk cap)
        | none => none

/-- An HTTP response as the downloader observes it: the status code, the
`Content-Disposition` header (`response.headers.get`, `none` when absent),
and the body. -/
structure HttpResponse where
  status : Nat
  contentDisposition : Option String
  body : String
deriving DecidableEq, Repr

/-- Outcome of `download_file`: the `(filename, error)` pair it returns plus
the files it wrote into the target directory. -/
structure DownloadResult where
  filename : Option String
  errorMsg : Option String
  writes : List (String × String)
deriving DecidableEq, Repr

/-- `download_file` (file_utils.py lines 43-91) on a received response:
exactly status 200 proceeds; the filename comes only from the
`Content-Disposition` header; no extractable filename is an error with no
file written; any other status is an `HTTP <code>` error with no file
written. (The `except` branch for transport failures, which also writes
nothing, is outside this response-level embedding.) -/
def downloadFile (url : String) (targetDir : String) (resp : HttpResponse) :
    DownloadResult :=
  if resp.status = 200 then
    match extractFilenameFromContentDisposition resp.contentDisposition with
    | none =>
      { filename := none
        errorMsg := some ("No filename could be determined from response headers for " ++ url)
        writes := [] }
    | some fn =>
      { filename := some fn
        errorMsg := none
        writes := [(targetDir ++ "/" ++ fn, resp.body)] }
  else
    { filename := none
      errorMsg := some ("HTTP " ++ toString resp.status ++ ": Failed to download " ++ url)
      writes := [] }

/-! ## Session pool and manager

Source: `src/services/kernel_manager.py` (`KernelManagerService`). Sessions
are the `KernelSession` records of `src/services/kernel_session.py`; the
active map `self.sessions` is an insertion-ordered association list; calls
to `session.stop()` are recorded in a `stopped` trace so that worker
shutdown is observable. The settings the code reads
(`settings.max_kernels`, `settings.session_pool_size`) are state fields.
Clock reads (`time.time()`) and the fallible directory cleanup inside
`_return_session_to_pool` are passed in as parameters. -/

/-- A `KernelSession` (kernel_session.py): identity, working directory
(`kernel_manager.cwd`), clocks, busy flag, execution counter. -/
structure KSession where
  sessionId : String
  cwd : String
  createdAt : Nat
  lastActivity : Nat
  isBusy : Bool
  executionCount : Nat
deriving DecidableEq, Repr

/-- Manager state: the active map, the pool (head is `pool[0]`), the trace
of sessions stopped so far, and the settings the manager reads. -/
structure MgrState where
  sessions : List (String × KSession)
  sessionPool : List KSession
  stopped : List KSession
  maxKernels : Nat
  sessionPoolSize : Nat
deriving DecidableEq, Repr

/-- `/tmp/sandbox_sessions/<session_id>`, the per-session directory. -/
def sessionDirOf (sessionId : String) : String :=
  "/tmp/sandbox_sessions/" ++ sessionId

/-- `_return_session_to_pool` (kernel_manager.py lines 98-130). With pool
space: reset the counters, clear the directory files and the manifest
(`cleanupOk` tells whether that try-block succeeds), and append to the pool
tail on success; the cleanup failing, or the pool being full, stops the
session instead. Returns the updated state and the method's boolean. -/
def returnSessionToPool (st : MgrState) (s : KSession) (now : Nat) (cleanupOk : Bool) :
    MgrState × Bool :=
  if st.sessionPool.length < st.sessionPoolSize then
    let s2 := { s with executionCount := 0, isBusy := false, lastActivity := now }
    if cleanupOk then
      ({ st with sessionPool := st.sessionPool ++ [s2] }, true)
    else
      ({ st with stopped := st.stopped ++ [s2] }, false)
  else
    ({ st with stopped := st.stopped ++ [s] }, false)

/-- Scan of Python `min(..., key=...)`: a later entry replaces the current
best only when strictly smaller, so the first minimum wins. -/
def pickOldestGo (best : String × KSession) :
    List (String × KSession) → String × KSession
  | [] => best
  | x :: rest =>
    if x.2.createdAt < best.2.createdAt then pickOldestGo x rest
    else pickOldestGo best rest

/-- Python `min(idle_sessions, key=lambda x: x[1].created_at)`: the first
entry attaining the minimal `created_at`; nothing on an empty list. -/
def pickOldest : List (String × KSession) → Option (String × KSession)
  | [] => none
  | x :: rest => some (pickOldestGo x rest)

/-- `_cleanup_oldest_session` (kernel_manager.py lines 450-468): among
non-busy active sessions pick the one with smallest `created_at`, pop it
from the active map, and attempt pool return, stopping it if that fails;
with every session busy, do nothing. -/
def cleanupOldestSession (st : MgrState) (now : Nat) (cleanupOk : Bool) : MgrState :=
  let idle := st.sessions.filter (fun p => !p.2.isBusy)
  match pickOldest idle with
  | none => st
  | some (oldestId, oldest) =>
    let st1 := { st with sessions := dictRemove st.sessions oldestId }
    let (st2, ok) := returnSessionToPool st1 oldest now cleanupOk
    if ok then st2 else { st2 with stopped := st2.stopped ++ [oldest] }

/-- The new-session branch of `create_session_with_files` (kernel_manager.py
lines 270-332), for an id not in the active map and no file downloads: evict
when at capacity, then rebind the pool head when the pool is non-empty
(`rebindOk` is the awaited chdir priming completing rather than raising) or
start a fresh session (`startOk` is `session.start()` succeeding), and on
success insert the session under the new id. `none` as second component
means the acquisition raised and handed no session to the caller. -/
def createNewSession (st : MgrState) (newId : String) (now : Nat)
    (cleanupOk rebindOk startOk : Bool) : MgrState × Option KSession :=
  let st1 :=
    if st.sessions.length ≥ st.maxKernels then cleanupOldestSession st now cleanupOk
    else st
  match st1.sessionPool with
  | s :: restPool =>
    let st2 := { st1 with sessionPool := restPool }
    if rebindOk then
      let s2 := { s with sessionId := newId, cwd := sessionDirOf newId }
      ({ st2 with sessions := dictInsert st2.sessions newId s2 }, some s2)
    else
      (st2, none)
  | [] =>
    let s2 : KSession :=
      { sessionId := newId, cwd := sessionDirOf newId, createdAt := now,
        lastActivity := now, isBusy := false, executionCount := 0 }
    if startOk then
      ({ st1 with sessions := dictInsert st1.sessions newId s2 }, some s2)
    else
      ({ st1 with stopped := st1.stopped ++ [s2] }, none)

/-- `terminate_session` of the core manager (kernel_manager.py lines
470-489): pop the session and attempt pool return, stopping it if that
fails; unknown ids return `false`. -/
def terminateSessionCore (st : MgrState) (sessionId : String) (now : Nat)
    (cleanupOk : Bool) : MgrState × Bool :=
  match dictLookup st.sessions sessionId with
  | none => (st, false)
  | some s =>
    let st1 := { st with sessions := dictRemove st.sessions sessionId }
    let (st2, ok) := returnSessionToPool st1 s now cleanupOk
    if ok then (st2, true)
    else ({ st2 with stopped := st2.stopped ++ [s] }, true)

/-- The HTTP `DELETE /sessions/{id}` handler (`src/sandbox_mcp/api.py` lines
163-175): pop the session and call `session.stop()` directly; unknown ids
are a 404 (`false`). -/
def httpDeleteSession (st : MgrState) (sessionId : String) : MgrState × Bool :=
  match dictLookup st.sessions sessionId with
  | none => (st, false)
  | some s =>
    ({ st with sessions := dictRemove st.sessions sessionId,
               stopped := st.stopped ++ [s] }, true)

/-- The MCP tool `terminate_session` (`src/sandbox_mcp/mcp_server.py` lines
129-147): `del kernel_manager.sessions[session_id]` and nothing else; the
worker is not stopped and no pool return is attempted. Unknown ids return a
warning (`false`). -/
def mcpTerminateSession (st : MgrState) (sessionId : String) : MgrState × Bool :=
  if (dictLookup st.sessions sessionId).isSome then
    ({ st with sessions := dictRemove st.sessions sessionId }, true)
  else (st, false)

/-! ## File processing during acquisition

Source: `src/services/kernel_manager.py` lines 162-224
(`_process_existing_files`, `_process_file_urls`, `_process_files_with_id`).
The downloader is an oracle `dl : url → DlOutcome` abstracting
`download_file` (on success it also writes the file into the session
directory, so the filename joins the disk set); the disk contents of the
session directory are the set of filenames present. A `fetched` trace
records which URLs were actually passed to `download_file`. -/

/-- A `FileItem` of `schema/models.py`: an id-bearing download request. -/
structure FileItem where
  id : String
  url : String
deriving DecidableEq, Repr

/-- Outcome of one `download_file` call, as seen by the callers: the
`(filename, error)` pair with exactly one side set. -/
inductive DlOutcome where
  | ok (filename : String)
  | fail (msg : String)
deriving DecidableEq, Repr

/-- State threaded through the file-processing helpers. -/
structure FilesState where
  manifest : List (String × String)
  disk : List String
  downloaded : List String
  errors : List String
  fetched : List String
deriving DecidableEq, Repr

/-- `if x not in l: l.append(x)`. -/
def appendIfNew (l : List String) (x : String) : List String :=
  if x ∈ l then l else l ++ [x]

/-- The tail of `_process_files_with_id`'s loop body (lines 214-222):
actually call the downloader, record the error with the
`Failed to download file <id>: ` prefix, or record the filename, put the
manifest entry, and gain the file on disk. -/
def downloadNewFile (dl : String → DlOutcome) (st : FilesState) (item : FileItem) :
    FilesState :=
  let st1 := { st with fetched := st.fetched ++ [item.url] }
  match dl item.url with
  | .fail e =>
    { st1 with errors := st1.errors ++ ["Failed to download file " ++ item.id ++ ": " ++ e] }
  | .ok fn =>
    { st1 with downloaded := appendIfNew st1.downloaded fn
               manifest := dictInsert st1.manifest item.id fn
               disk := if fn ∈ st1.disk then st1.disk else st1.disk ++ [fn] }

/-- One iteration of `_process_files_with_id` (lines 194-222): a manifest
hit whose backing file is on disk reports the recorded filename and skips
the download; a hit whose file is gone drops the entry and re-downloads;
a miss downloads. -/
def processFileItem (dl : String → DlOutcome) (st : FilesState) (item : FileItem) :
    FilesState :=
  match dictLookup st.manifest item.id with
  | some existingFilename =>
    if existingFilename ∈ st.disk then
      { st with downloaded := appendIfNew st.downloaded existingFilename }
    else
      downloadNewFile dl { st with manifest := dictRemove st.manifest item.id } item
  | none => downloadNewFile dl st item

/-- `_process_files_with_id` over the whole request list. -/
def processFilesWithId (dl : String → DlOutcome) (st : FilesState)
    (files : List FileItem) : FilesState :=
  files.foldl (processFileItem dl) st

/-- `_process_file_urls` (lines 178-188): legacy id-less downloads; errors
are recorded verbatim, successes join `downloaded` and the disk, and the
manifest is not touched. -/
def processFileUrls (dl : String → DlOutcome) (st : FilesState) (urls : List String) :
    FilesState :=
  urls.foldl
    (fun st url =>
      let st1 := { st with fetched := st.fetched ++ [url] }
      match dl url with
      | .fail e => { st1 with errors := st1.errors ++ [e] }
      | .ok fn =>
        { st1 with downloaded := appendIfNew st1.downloaded fn
                   disk := if fn ∈ st1.disk then st1.disk else st1.disk ++ [fn] })
    st

/-- The loop of `_process_existing_files` (lines 162-176): iterate over a
copy of the manifest; entries whose file is on disk are reported, the
others are removed from the live config. -/
def pefAux (disk : List String) :
    List (String × String) → List (String × String) → List String →
    List (String × String) × List String
  | [], cfg, downloaded => (cfg, downloaded)
  | (fid, fn) :: rest, cfg, downloaded =>
    if fn ∈ disk then pefAux disk rest cfg (downloaded ++ [fn])
    else pefAux disk rest (dictRemove cfg fid) downloaded

/-- `_process_existing_files`: reconcile a manifest against the disk,
returning the surviving manifest and the filenames reported. -/
def processExistingFiles (manifest : List (String × String)) (disk : List String) :
    List (String × String) × List String :=
  pefAux disk manifest manifest []

/-! ## Session acquisition paths that hand over a manifest

Source: `src/services/kernel_manager.py` lines 244-268 (the existing-id
branch of `create_session_with_files`, the `POST /sessions` reuse path) and
lines 334-342 (`get_or_create_session`, the execution reuse path). A session
here carries its manifest and its on-disk file set. -/

/-- An active session together with the state of its working directory. -/
structure SessRec where
  session : KSession
  manifest : List (String × String)
  disk : List String
deriving DecidableEq, Repr

/-- The existing-id branch of `create_session_with_files`: touch the
session, reconcile the manifest against the disk, then process the newly
requested legacy URLs and id-bearing files. Returns the session handed to
the client and the final files state (whose `downloaded` and `errors` go
into the response). -/
def createSessionWithFilesExisting (dl : String → DlOutcome) (r : SessRec) (now : Nat)
    (fileUrls : List String) (files : List FileItem) : SessRec × FilesState :=
  let r1 := { r with session := { r.session with lastActivity := now } }
  let reconciled := processExistingFiles r.manifest r.disk
  let st0 : FilesState :=
    { manifest := reconciled.1, disk := r.disk, downloaded := reconciled.2,
      errors := [], fetched := [] }
  let st1 := processFileUrls dl st0 fileUrls
  let st2 := processFilesWithId dl st1 files
  ({ r1 with manifest := st2.manifest, disk := st2.disk }, st2)

/-- `get_or_create_session`: an id found in the active map is touched and
returned as-is — no manifest reconciliation happens on this path; otherwise
the call falls through to `create_session_with_files`, abstracted here as
the `create` parameter (every theorem below is about the existing-id
branch and holds for any `create`). -/
def getOrCreateSession
    (create : List (String × SessRec) → Option String → SessRec × List (String × SessRec))
    (sessions : List (String × SessRec)) (sessionId : Option String) (now : Nat) :
    SessRec × List (String × SessRec) :=
  match sessionId with
  | some sid =>
    match dictLookup sessions sid with
    | some r =>
      let r2 := { r with session := { r.session with lastActivity := now } }
      (r2, dictInsert sessions sid r2)
    | none => create sessions (some sid)
  | none => create sessions none

/-! ## Working-directory contents across pool return and reuse

Source: `src/services/kernel_manager.py` lines 98-130
(`_return_session_to_pool`: the `os.listdir`/`os.path.isfile`/`os.remove`
loop deletes only top-level regular files) and lines 274-300 (pool reuse in
`create_session_with_files`: the pooled session is rebound to
`/tmp/sandbox_sessions/<new_id>`, created with `os.makedirs(...,
exist_ok=True)`, and the kernel chdir'd there). The file system maps a
directory path to its top-level listing. -/

/-- A top-level directory entry: a regular file, or a subdirectory with the
names inside it. -/
inductive FsEntry where
  | file
  | subdir (entries : List String)
deriving DecidableEq, Repr

/-- A directory's top-level listing. -/
abbrev DirListing := List (String × FsEntry)

/-- The cleanup loop of `_return_session_to_pool` lines 110-114: for each
listed name, remove it when `os.path.isfile` holds; everything else (in
particular subdirectories and their contents) is untouched. -/
def clearSessionDir (d : DirListing) : DirListing :=
  d.filter (fun e =>
    match e.2 with
    | .file => false
    | .subdir _ => true)

/-- Pool state with an explicit file system and the persisted manifests. -/
structure PoolFsState where
  fs : List (String × DirListing)
  manifests : List (String × List (String × String))
  pool : List KSession
  poolSize : Nat
deriving DecidableEq, Repr

/-- `_return_session_to_pool` acting on the file system: with pool space,
delete the top-level files of the session's working directory, clear its
persisted manifest, and append the session to the pool; with the pool full
the session is stopped, which removes the whole directory
(`shutil.rmtree` in `kernel_session.py`). Directory cleanup is assumed to
succeed (the failure path also stops the session). -/
def returnSessionToPoolFs (st : PoolFsState) (s : KSession) : PoolFsState :=
  if st.pool.length < st.poolSize then
    { st with
      fs := dictInsert st.fs s.cwd (clearSessionDir ((dictLookup st.fs s.cwd).getD []))
      manifests := dictInsert st.manifests s.cwd []
      pool := st.pool ++ [s] }
  else
    { st with fs := dictRemove st.fs s.cwd, manifests := dictRemove st.manifests s.cwd }

/-- The pool-reuse branch of `create_session_with_files` acting on the file
system: pop the pool head, rebind it to `/tmp/sandbox_sessions/<new_id>`
(`os.makedirs(..., exist_ok=True)`: create the directory empty only when
the path does not exist yet), and hand it over with the new working
directory. -/
def reusePooledSession (st : PoolFsState) (newId : String) :
    Option (PoolFsState × KSession) :=
  match st.pool with
  | [] => none
  | s :: restPool =>
    let newDir := sessionDirOf newId
    let fs1 := if (dictLookup st.fs newDir).isSome then st.fs else dictInsert st.fs newDir []
    let s2 := { s with sessionId := newId, cwd := newDir }
    some ({ st with pool := restPool, fs := fs1 }, s2)

/-! ## Dictionary lemmas -/

theorem mem_dictInsert {α : Type} {m : List (String × α)} {k : String} {v : α}
    {e : String × α} (h : e ∈ dictInsert m k v) : e ∈ m ∨ e = (k, v) := by
  induction m with
  | nil => simp [dictInsert] at h; simp [h]
  | cons hd tl ih =>
    rcases hd with ⟨k0, v0⟩
    simp only [dictInsert] at h
    by_cases hk : k0 = k
    · rw [if_pos hk] at h
      rcases List.mem_cons.mp h with h | h
      · right; exact h
      · left; exact List.mem_cons_of_mem _ h
    · rw [if_neg hk] at h
      rcases List.mem_cons.mp h with h | h
      · left; simp [h]
      · rcases ih h with h | h
        · left; exact List.mem_cons_of_mem _ h
        · right; exact h

theorem mem_dictRemove {α : Type} {m : List (String × α)} {k : String} {e : String × α}
    (h : e ∈ dictRemove m k) : e ∈ m := by
  induction m with
  | nil => simp [dictRemove] at h
  | cons hd tl ih =>
    rcases hd with ⟨k0, v0⟩
    simp only [dictRemove] at h
    by_cases hk : k0 = k
    · rw [if_pos hk] at h
      exact List.mem_cons_of_mem _ h
    · rw [if_neg hk] at h
      rcases List.mem_cons.mp h with h | h
      · simp [h]
      · exact List.mem_cons_of_mem _ (ih h)

theorem not_mem_dictRemove_self {α : Type} {m : List (String × α)} {k : String}
    (hnd : keysNodup m) (v : α) : (k, v) ∉ dictRemove m k := by
  induction m with
  | nil => simp [dictRemove]
  | cons hd tl ih =>
    rcases hd with ⟨k0, v0⟩
    simp only [keysNodup, List.map_cons, List.nodup_cons] at hnd
    rcases hnd with ⟨hk0, htl⟩
    simp only [dictRemove]
    by_cases hk : k0 = k
    · rw [if_pos hk]
      intro hmem
      subst hk
      exact hk0 (List.mem_map.mpr ⟨(k0, v), hmem, rfl⟩)
    · rw [if_neg hk]
      intro hmem
      rcases List.mem_cons.mp hmem with h | h
      · exact hk (by injection h with h1 h2; exact h1.symm)
      · exact ih htl h

theorem keysNodup_dictRemove {α : Type} {m : List (String × α)} {k : String}
    (hnd : keysNodup m) : keysNodup (dictRemove m k) := by
  induction m with
  | nil => simpa [dictRemove] using hnd
  | cons hd tl ih =>
    rcases hd with ⟨k0, v0⟩
    simp only [keysNodup, List.map_cons, List.nodup_cons] at hnd
    rcases hnd with ⟨hk0, htl⟩
    simp only [dictRemove]
    by_cases hk : k0 = k
    · rw [if_pos hk]; exact htl
    · rw [if_neg hk]
      simp only [keysNodup, List.map_cons, List.nodup_cons]
      refine ⟨?_, ih htl⟩
      intro hmem
      rcases List.mem_map.mp hmem with ⟨e, he, hfst⟩
      exact hk0 (List.mem_map.mpr ⟨e, mem_dictRemove he, hfst⟩)

theorem dictLookup_dictInsert_self {α : Type} (m : List (String × α)) (k : String) (v : α) :
    dictLookup (dictInsert m k v) k = some v := by
  induction m with
  | nil => simp [dictInsert, dictLookup]
  | cons hd tl ih =>
    rcases hd with ⟨k0, v0⟩
    simp only [dictInsert]
    by_cases hk : k0 = k
    · rw [if_pos hk]; simp [dictLookup]
    · rw [if_neg hk]; simp only [dictLookup, if_neg hk]; exact ih

theorem dictLookup_dictRemove_self {α : Type} {m : List (String × α)} {k : String}
    (hnd : keysNodup m) : dictLookup (dictRemove m k) k = none := by
  cases h : dictLookup (dictRemove m k) k with
  | none => rfl
  | some v =>
    exfalso
    have hmem : (k, v) ∈ dictRemove m k := by
      clear hnd
      induction m with
      | nil => simp [dictRemove, dictLookup] at h
      | cons hd tl ih =>
        rcases hd with ⟨k0, v0⟩
        simp only [dictRemove] at h ⊢
        by_cases hk : k0 = k
        · rw [if_pos hk] at h ⊢
          clear ih
          induction tl with
          | nil => simp [dictLookup] at h
          | cons hd2 tl2 ih2 =>
            rcases hd2 with ⟨k2, v2⟩
            simp only [dictLookup] at h
            by_cases hk2 : k2 = k
            · rw [if_pos hk2] at h
              injection h with h
              subst hk2 h
              exact List.mem_cons_self _ _
            · rw [if_neg hk2] at h
              exact List.mem_cons_of_mem _ (ih2 h)
        · rw [if_neg hk] at h ⊢
          simp only [dictLookup, if_neg hk] at h
          exact List.mem_cons_of_mem _ (ih h)
    exact not_mem_dictRemove_self hnd v hmem

theorem dictInsert_eq_append {α : Type} {m : List (String × α)} {k : String}
    (hnone : dictLookup m k = none) (v : α) : dictInsert m k v = m ++ [(k, v)] := by
  induction m with
  | nil => simp [dictInsert]
  | cons hd tl ih =>
    rcases hd with ⟨k0, v0⟩
    simp only [dictLookup] at hnone
    by_cases hk : k0 = k
    · rw [if_pos hk] at hnone; exact absurd hnone (by simp)
    · rw [if_neg hk] at hnone
      simp only [dictInsert, if_neg hk, List.cons_append, List.cons.injEq, true_and]
      exact ih hnone

theorem dictLookup_dictRemove_none {α : Type} {m : List (String × α)} {k j : String}
    (hnone : dictLookup m k = none) : dictLookup (dictRemove m j) k = none := by
  induction m with
  | nil => simp [dictRemove, dictLookup]
  | cons hd tl ih =>
    rcases hd with ⟨k0, v0⟩
    simp only [dictLookup] at hnone
    by_cases hk : k0 = k
    · rw [if_pos hk] at hnone; exact absurd hnone (by simp)
    · rw [if_neg hk] at hnone
      simp only [dictRemove]
      by_cases hj : k0 = j
      · rw [if_pos hj]; exact hnone
      · rw [if_neg hj]
        simp only [dictLookup, if_neg hk]
        exact ih hnone

theorem keysNodup_value_unique {α : Type} {m : List (String × α)} {k : String} {v v2 : α}
    (hnd : keysNodup m) (h1 : (k, v) ∈ m) (h2 : (k, v2) ∈ m) : v2 = v := by
  induction m with
  | nil => simp at h1
  | cons hd tl ih =>
    rcases hd with ⟨k0, v0⟩
    simp only [keysNodup, List.map_cons, List.nodup_cons] at hnd
    rcases hnd with ⟨hk0, htl⟩
    rcases List.mem_cons.mp h1 with h1 | h1 <;> rcases List.mem_cons.mp h2 with h2 | h2
    · rw [Prod.mk.injEq] at h1 h2
      rw [h2.2, h1.2]
    · exfalso
      injection h1 with hke _
      exact hk0 (hke ▸ List.mem_map.mpr ⟨(k, v2), h2, rfl⟩)
    · exfalso
      injection h2 with hke _
      exact hk0 (hke ▸ List.mem_map.mpr ⟨(k, v), h1, rfl⟩)
    · exact ih htl h1 h2

theorem mem_appendIfNew_self (l : List String) (x : String) : x ∈ appendIfNew l x := by
  by_cases h : x ∈ l
  · simp [appendIfNew, h]
  · simp [appendIfNew, h]

theorem atomicReplacePattern_rename_mem {ops : List FsOp} {path : String}
    (h : atomicReplacePattern ops path) : ∃ src, FsOp.rename src path ∈ ops := by
  rcases h with ⟨pre, tmp, doc, _, hops⟩
  exact ⟨tmp, hops ▸ List.mem_append_right pre (by simp)⟩

theorem not_atomic_saveConfigOps (dir : String) (doc : List (String × String))
    (path : String) : ¬ atomicReplacePattern (saveConfigOps dir doc) path := by
  intro h
  rcases atomicReplacePattern_rename_mem h with ⟨src, hmem⟩
  simp [saveConfigOps] at hmem

/-! ## Claim C3 -/

/-- C3 (code_bug evidence): when an execution exceeds its wall-clock
timeout, the kernel manager does yield a `StreamMessage` whose content is
`{"error": "Execution timeout"}`, but the client-visible output does NOT
carry an error event with message `"Execution timeout"`: on the streaming
`/execute` surface `_process_message` reads the `evalue` and `traceback`
keys (absent from that content), so the client sees
`{"error": "Unknown error", "traceback": []}`; on the `execute_sync`
surface the timeout branch breaks out of the loop without appending any
event, so the client sees no error at all. Evaluated at an execution whose
effective timeout is 30 and whose first poll tick observes 31 s elapsed. -/
theorem C3_timeout_event_lost :
    timeoutStreamMsg.content.errorMsg = some "Execution timeout" ∧
    execLoop 30 [(PollItem.tick, 31)] = [timeoutStreamMsg] ∧
    streamSurfaceEvents 30 [(PollItem.tick, 31)] = [OutputEvent.errorOut "Unknown error" []] ∧
    syncLoopOutputs 30 [(PollItem.tick, 31)] = [] := by
  refine ⟨rfl, ?_, ?_, ?_⟩ <;> decide

/-! ## Claim C4 -/

/-- C4 (counterexample): an execution submitted with `timeout=0` does NOT
terminate on the first 1-second poll tick with a timeout error, and the
default `max_execution_time` is used even though the caller supplied a
timeout: `timeout or settings.max_execution_time` treats `0` as absent, so
the effective timeout is 30 (the default), and the first poll tick at 1 s
elapsed yields nothing. -/
theorem C4_timeout_zero_counterexample :
    executionTimeoutOf (some 0) 30 = 30 ∧
    executionTimeoutOf (some 0) 30 ≠ 0 ∧
    execLoop (executionTimeoutOf (some 0) 30) [(PollItem.tick, 1)] = [] ∧
    syncLoopOutputs (executionTimeoutOf (some 0) 30) [(PollItem.tick, 1)] = [] := by
  refine ⟨rfl, by decide, ?_, ?_⟩ <;> decide

/-- C4 (amended): the effective deadline is `start + timeout` for every
NONZERO caller-supplied timeout; the default `max_execution_time` is used
both when the caller supplies no timeout and when the caller supplies
`timeout=0` (Python `or` truthiness), so a `timeout=0` execution does not
time out on the first 1-second poll tick whenever the default is at least
1 second. -/
theorem C4_effective_timeout (t d : Int) (ht : t ≠ 0) (hd : 1 ≤ d) :
    executionTimeoutOf (some t) d = t ∧
    executionTimeoutOf none d = d ∧
    executionTimeoutOf (some 0) d = d ∧
    execLoop (executionTimeoutOf (some 0) d) [(PollItem.tick, 1)] = [] := by
  refine ⟨by simp [executionTimeoutOf, ht], rfl, by simp [executionTimeoutOf], ?_⟩
  have h0 : executionTimeoutOf (some 0) d = d := by simp [executionTimeoutOf]
  rw [h0]
  simp only [execLoop]
  rw [if_neg (by omega)]

/-- Witness for `C4_effective_timeout` at `t = 5`, `d = 30`. -/
theorem C4_effective_timeout_witness :
    executionTimeoutOf (some 5) 30 = 5 ∧
    executionTimeoutOf none 30 = 30 ∧
    executionTimeoutOf (some 0) 30 = 30 ∧
    execLoop (executionTimeoutOf (some 0) 30) [(PollItem.tick, 1)] = [] :=
  C4_effective_timeout 5 30 (by decide) (by decide)

/-! ## Claim C7 -/

/-- C7 (counterexample): the put operation `add_file` on a concrete
manifest persists by operations that do not match the
write-temp-then-rename pattern over `workdir/.session_files.json` — the
trace is a `makedirs` followed by a single direct write to the config path
itself, with no rename anywhere. -/
theorem C7_save_not_atomic_counterexample :
    (addFile { sessionDir := "/tmp/sandbox_sessions/s1", config := [] } "f1" "x.csv").2 =
      [FsOp.makedirs "/tmp/sandbox_sessions/s1",
       FsOp.writeFile "/tmp/sandbox_sessions/s1/.session_files.json" [("f1", "x.csv")]] ∧
    ¬ atomicReplacePattern
        (addFile { sessionDir := "/tmp/sandbox_sessions/s1", config := [] } "f1" "x.csv").2
        (configPath "/tmp/sandbox_sessions/s1") := by
  constructor
  · rfl
  · exact not_atomic_saveConfigOps _ _ _

/-- C7 (amended): every mutating manifest operation (put, remove when the
entry is present, clear) rewrites the persisted document by
`os.makedirs` followed by one direct `open(config_path, "w")` write of the
whole document to `workdir/.session_files.json`; no temporary file is
written and no rename is performed, so the write-temp-then-rename atomicity
the spec describes is not provided by any of them. -/
theorem C7_save_is_direct_write (c : SessionFileConfig) (fileId filename : String) :
    (addFile c fileId filename).2 =
      [FsOp.makedirs c.sessionDir,
       FsOp.writeFile (configPath c.sessionDir) (dictInsert c.config fileId filename)] ∧
    ¬ atomicReplacePattern (addFile c fileId filename).2 (configPath c.sessionDir) ∧
    ((dictLookup c.config fileId).isSome →
      (removeFile c fileId).2 =
        [FsOp.makedirs c.sessionDir,
         FsOp.writeFile (configPath c.sessionDir) (dictRemove c.config fileId)] ∧
      ¬ atomicReplacePattern (removeFile c fileId).2 (configPath c.sessionDir)) ∧
    (clearAllFiles c).2 =
      [FsOp.makedirs c.sessionDir, FsOp.writeFile (configPath c.sessionDir) []] ∧
    ¬ atomicReplacePattern (clearAllFiles c).2 (configPath c.sessionDir) := by
  refine ⟨rfl, not_atomic_saveConfigOps _ _ _, ?_, rfl, not_atomic_saveConfigOps _ _ _⟩
  intro hsome
  rw [removeFile, if_pos hsome]
  exact ⟨rfl, not_atomic_saveConfigOps _ _ _⟩

/-- Witness for `C7_save_is_direct_write` at a config holding one entry. -/
theorem C7_save_is_direct_write_witness :
    (removeFile { sessionDir := "/tmp/sandbox_sessions/s1", config := [("f1", "x.csv")] }
        "f1").2 =
      [FsOp.makedirs "/tmp/sandbox_sessions/s1",
       FsOp.writeFile (configPath "/tmp/sandbox_sessions/s1")
         (dictRemove [("f1", "x.csv")] "f1")] ∧
    ¬ atomicReplacePattern
        (removeFile { sessionDir := "/tmp/sandbox_sessions/s1", config := [("f1", "x.csv")] }
          "f1").2
        (configPath "/tmp/sandbox_sessions/s1") :=
  (C7_save_is_direct_write
      { sessionDir := "/tmp/sandbox_sessions/s1", config := [("f1", "x.csv")] }
      "f1" "unused").2.2.1 (by decide)

/-! ## Claim C8 -/

/-- C8 (counterexample): an `execute_result` worker message whose data
mapping contains BOTH `image/png` and `text/plain` is translated into a
text event, not an image event — `_process_message` checks `text/plain`
first on the `execute_result` branch. -/
theorem C8_execute_result_prefers_text :
    processMessage MessageType.executeResult
        { data := [("image/png", "B64"), ("text/plain", "figtext")] } =
      some (OutputEvent.textOut "figtext") ∧
    some (OutputEvent.textOut "figtext") ≠
      some (OutputEvent.imageOut "B64" "png") := by
  exact ⟨by decide, by decide⟩

/-- C8 (amended): a `display_data` message with `image/png` is always
translated to an image event; an `execute_result` message prefers
`text/plain`: it yields an image event only when `image/png` is present and
`text/plain` is absent, and yields a text event whenever `text/plain` is
present, even alongside `image/png`. -/
theorem C8_image_translation (c : MsgContent) (png : String) :
    (dictLookup c.data "image/png" = some png →
      processMessage MessageType.displayData c = some (OutputEvent.imageOut png "png")) ∧
    (dictLookup c.data "image/png" = some png →
      dictLookup c.data "text/plain" = none →
      processMessage MessageType.executeResult c = some (OutputEvent.imageOut png "png")) ∧
    (∀ s, dictLookup c.data "text/plain" = some s →
      processMessage MessageType.executeResult c = some (OutputEvent.textOut s)) := by
  refine ⟨?_, ?_, ?_⟩
  · intro hpng
    simp [processMessage, hpng]
  · intro hpng htext
    simp [processMessage, hpng, htext]
  · intro s htext
    simp [processMessage, htext]

/-- Witness for `C8_image_translation` at a data map holding both mime
keys. -/
theorem C8_image_translation_witness :
    processMessage MessageType.displayData
        { data := [("image/png", "B64"), ("text/plain", "figtext")] } =
      some (OutputEvent.imageOut "B64" "png") ∧
    processMessage MessageType.executeResult
        { data := [("image/png", "B64"), ("text/plain", "figtext")] } =
      some (OutputEvent.textOut "figtext") := by
  have h := C8_image_translation
    { data := [("image/png", "B64"), ("text/plain", "figtext")] } "B64"
  exact ⟨h.1 (by decide), h.2.2 "figtext" (by decide)⟩

/-! ## Claim C6 -/

/-- C6 (counterexample): a 2xx response that is not exactly 200 fails even
though a filename is extractable from its `Content-Disposition` header —
`download_file` tests `response.status == 200`, not 2xx — and the failure
message spells `Failed` with a capital F. Evaluated at status 201 with
`Content-Disposition: attachment; filename="x.csv"`. -/
theorem C6_status_201_counterexample :
    (200 ≤ 201 ∧ 201 < 300) ∧
    extractFilenameFromContentDisposition (some "attachment; filename=\"x.csv\"") =
      some "x.csv" ∧
    (downloadFile "http://h/x" "/d"
        { status := 201, contentDisposition := some "attachment; filename=\"x.csv\"",
          body := "B" }).filename = none ∧
    (downloadFile "http://h/x" "/d"
        { status := 201, contentDisposition := some "attachment; filename=\"x.csv\"",
          body := "B" }).errorMsg = some "HTTP 201: Failed to download http://h/x" ∧
    (downloadFile "http://h/x" "/d"
        { status := 201, contentDisposition := some "attachment; filename=\"x.csv\"",
          body := "B" }).writes = [] := by
  refine ⟨by decide, by decide, rfl, ?_, rfl⟩
  decide

/-- C6 (amended): `download_file` succeeds exactly when the response status
is exactly 200 AND a filename can be extracted from the
`Content-Disposition` header (RFC 5987 `filename*` first, then `filename`);
a 200 response with no extractable filename fails with the no-filename
error and writes no file; every non-200 response (other 2xx codes
included) fails with message `HTTP <code>: Failed to download <url>` and
writes no file; and a successful filename always equals the one extracted
from the header — the URL path is never used. -/
theorem C6_download_contract (url targetDir : String) (resp : HttpResponse) :
    ((downloadFile url targetDir resp).errorMsg = none ↔
      resp.status = 200 ∧
        extractFilenameFromContentDisposition resp.contentDisposition ≠ none) ∧
    (resp.status = 200 →
      extractFilenameFromContentDisposition resp.contentDisposition = none →
      (downloadFile url targetDir resp).errorMsg =
        some ("No filename could be determined from response headers for " ++ url) ∧
      (downloadFile url targetDir resp).writes = []) ∧
    (resp.status ≠ 200 →
      (downloadFile url targetDir resp).errorMsg =
        some ("HTTP " ++ toString resp.status ++ ": Failed to download " ++ url) ∧
      (downloadFile url targetDir resp).writes = []) ∧
    (∀ fn, (downloadFile url targetDir resp).filename = some fn →
      extractFilenameFromContentDisposition resp.contentDisposition = some fn) := by
  by_cases hs : resp.status = 200
  · cases hx : extractFilenameFromContentDisposition resp.contentDisposition with
    | none =>
      refine ⟨?_, fun _ _ => ?_, fun h => absurd hs h, fun fn hfn => ?_⟩
      · simp [downloadFile, hs, hx]
      · simp [downloadFile, hs, hx]
      · simp [downloadFile, hs, hx] at hfn
    | some fn0 =>
      refine ⟨?_, fun _ hnone => ?_, fun h => absurd hs h, fun fn hfn => ?_⟩
      · simp [downloadFile, hs, hx]
      · exact absurd hnone (by simp)
      · simp [downloadFile, hs, hx] at hfn
        exact congrArg some hfn
  · refine ⟨?_, fun h => absurd h hs, fun _ => ?_, fun fn hfn => ?_⟩
    · simp [downloadFile, hs]
    · simp [downloadFile, hs]
    · simp [downloadFile, hs] at hfn

/-- Witness for `C6_download_contract` at a 404 response. -/
theorem C6_download_contract_witness :
    (downloadFile "http://h/x" "/d"
        { status := 404, contentDisposition := none, body := "" }).errorMsg =
      some ("HTTP " ++ toString (404 : Nat) ++ ": Failed to download http://h/x") ∧
    (downloadFile "http://h/x" "/d"
        { status := 404, contentDisposition := none, body := "" }).writes = [] :=
  (C6_download_contract "http://h/x" "/d"
      { status := 404, contentDisposition := none, body := "" }).2.2.1 (by decide)

/-! ## Claim C5 -/

/-- C5 (confirmed): for a requested files entry whose id is already present
in the session manifest (`processFilesWithId` folds this step over the
request list): if the recorded backing file exists on disk, no download is
performed (the fetched-URL trace is untouched) and the recorded filename is
reported in `downloaded_files`; if the backing file is missing, the
manifest entry is removed and the URL is downloaded again — on success the
entry is re-added mapping the id to the newly downloaded filename (also
reported), on failure the id stays absent from the manifest and the error
is recorded. -/
theorem C5_manifest_hit_and_redownload (dl : String → DlOutcome) (st : FilesState)
    (item : FileItem) (hnd : keysNodup st.manifest) :
    (∀ fn, dictLookup st.manifest item.id = some fn → fn ∈ st.disk →
      processFileItem dl st item =
        { st with downloaded := appendIfNew st.downloaded fn } ∧
      (processFileItem dl st item).fetched = st.fetched ∧
      fn ∈ (processFileItem dl st item).downloaded) ∧
    (∀ fn, dictLookup st.manifest item.id = some fn → fn ∉ st.disk →
      item.url ∈ (processFileItem dl st item).fetched ∧
      (∀ newFn, dl item.url = DlOutcome.ok newFn →
        dictLookup (processFileItem dl st item).manifest item.id = some newFn ∧
        newFn ∈ (processFileItem dl st item).downloaded) ∧
      (∀ e, dl item.url = DlOutcome.fail e →
        dictLookup (processFileItem dl st item).manifest item.id = none ∧
        ("Failed to download file " ++ item.id ++ ": " ++ e)
          ∈ (processFileItem dl st item).errors)) := by
  constructor
  · intro fn hlk hdisk
    have hstep : processFileItem dl st item =
        { st with downloaded := appendIfNew st.downloaded fn } := by
      simp [processFileItem, hlk, hdisk]
    refine ⟨hstep, by rw [hstep], ?_⟩
    rw [hstep]
    exact mem_appendIfNew_self _ _
  · intro fn hlk hdisk
    have hstep : processFileItem dl st item =
        downloadNewFile dl { st with manifest := dictRemove st.manifest item.id } item := by
      simp [processFileItem, hlk, hdisk]
    refine ⟨?_, ?_, ?_⟩
    · cases hdl : dl item.url <;> simp [hstep, downloadNewFile, hdl]
    · intro newFn hdl
      rw [hstep]
      simp only [downloadNewFile, hdl]
      exact ⟨dictLookup_dictInsert_self _ _ _, mem_appendIfNew_self _ _⟩
    · intro e hdl
      rw [hstep]
      simp only [downloadNewFile, hdl]
      exact ⟨dictLookup_dictRemove_self hnd, by simp⟩

/-- Witness for `C5_manifest_hit_and_redownload`: a manifest hit whose
backing file is on disk reports the recorded filename without fetching. -/
theorem C5_manifest_hit_and_redownload_witness :
    processFileItem (fun _ => DlOutcome.ok "y.csv")
        { manifest := [("f1", "x.csv")], disk := ["x.csv"], downloaded := [],
          errors := [], fetched := [] }
        { id := "f1", url := "http://h/x" } =
      { manifest := [("f1", "x.csv")], disk := ["x.csv"], downloaded := ["x.csv"],
        errors := [], fetched := [] } ∧
    (processFileItem (fun _ => DlOutcome.ok "y.csv")
        { manifest := [("f1", "x.csv")], disk := ["x.csv"], downloaded := [],
          errors := [], fetched := [] }
        { id := "f1", url := "http://h/x" }).fetched = [] ∧
    "x.csv" ∈ (processFileItem (fun _ => DlOutcome.ok "y.csv")
        { manifest := [("f1", "x.csv")], disk := ["x.csv"], downloaded := [],
          errors := [], fetched := [] }
        { id := "f1", url := "http://h/x" }).downloaded := by
  have h := (C5_manifest_hit_and_redownload (fun _ => DlOutcome.ok "y.csv")
      { manifest := [("f1", "x.csv")], disk := ["x.csv"], downloaded := [],
        errors := [], fetched := [] }
      { id := "f1", url := "http://h/x" } (by decide)).1 "x.csv" (by decide) (by decide)
  exact ⟨by rw [h.1]; rfl, h.2.1, h.2.2⟩

/-! ## Manifest-on-disk invariant lemmas -/

theorem downloadNewFile_inv {dl : String → DlOutcome} {st : FilesState} {item : FileItem}
    (h : ∀ e ∈ st.manifest, e.2 ∈ st.disk) :
    ∀ e ∈ (downloadNewFile dl st item).manifest, e.2 ∈ (downloadNewFile dl st item).disk := by
  cases hdl : dl item.url with
  | fail msg =>
    simp only [downloadNewFile, hdl]
    exact h
  | ok fn =>
    simp only [downloadNewFile, hdl]
    intro e he
    rcases mem_dictInsert he with he | he
    · have hd := h e he
      by_cases hfn : fn ∈ st.disk
      · simpa [hfn] using hd
      · simp only [hfn, if_neg, if_false]
        exact List.mem_append_left _ hd
    · subst he
      by_cases hfn : fn ∈ st.disk
      · simp [hfn]
      · simp [hfn]

theorem processFileItem_inv {dl : String → DlOutcome} {st : FilesState} {item : FileItem}
    (h : ∀ e ∈ st.manifest, e.2 ∈ st.disk) :
    ∀ e ∈ (processFileItem dl st item).manifest, e.2 ∈ (processFileItem dl st item).disk := by
  cases hlk : dictLookup st.manifest item.id with
  | none =>
    simp only [processFileItem, hlk]
    exact downloadNewFile_inv h
  | some fn =>
    simp only [processFileItem, hlk]
    by_cases hdisk : fn ∈ st.disk
    · simp only [hdisk, if_pos]
      exact h
    · simp only [hdisk, if_neg, if_false]
      exact downloadNewFile_inv (fun e he => h e (mem_dictRemove he))

theorem processFilesWithId_inv {dl : String → DlOutcome} {st : FilesState}
    {files : List FileItem} (h : ∀ e ∈ st.manifest, e.2 ∈ st.disk) :
    ∀ e ∈ (processFilesWithId dl st files).manifest,
      e.2 ∈ (processFilesWithId dl st files).disk := by
  induction files generalizing st with
  | nil => exact h
  | cons f fs ih =>
    simp only [processFilesWithId, List.foldl_cons] at ih ⊢
    exact ih (processFileItem_inv h)

theorem processFileUrls_inv {dl : String → DlOutcome} {st : FilesState}
    {urls : List String} (h : ∀ e ∈ st.manifest, e.2 ∈ st.disk) :
    ∀ e ∈ (processFileUrls dl st urls).manifest,
      e.2 ∈ (processFileUrls dl st urls).disk := by
  induction urls generalizing st with
  | nil => exact h
  | cons u us ih =>
    simp only [processFileUrls, List.foldl_cons] at ih ⊢
    apply ih
    cases hdl : dl u with
    | fail msg =>
      simp only [hdl]
      exact h
    | ok fn =>
      simp only [hdl]
      intro e he
      have hd := h e he
      by_cases hfn : fn ∈ st.disk
      · simpa [hfn] using hd
      · simp only [hfn, if_neg, if_false]
        exact List.mem_append_left _ hd

theorem pefAux_mem_disk (disk : List String) :
    ∀ (todo cfg : List (String × String)) (downloaded : List String),
      keysNodup cfg →
      (∀ e ∈ cfg, e ∈ todo ∨ e.2 ∈ disk) →
      (∀ k v v2, (k, v) ∈ todo → (k, v2) ∈ cfg → v2 = v) →
      ∀ e ∈ (pefAux disk todo cfg downloaded).1, e.2 ∈ disk := by
  intro todo
  induction todo with
  | nil =>
    intro cfg downloaded _ h1 _ e he
    simp only [pefAux] at he
    rcases h1 e he with h | h
    · simp at h
    · exact h
  | cons hd rest ih =>
    rcases hd with ⟨fid, fn⟩
    intro cfg downloaded hnd h1 h2
    simp only [pefAux]
    by_cases hfn : fn ∈ disk
    · rw [if_pos hfn]
      apply ih cfg (downloaded ++ [fn]) hnd
      · intro e he
        rcases h1 e he with h | h
        · rcases List.mem_cons.mp h with h | h
          · right; rw [h]; exact hfn
          · left; exact h
        · right; exact h
      · intro k v v2 hv hv2
        exact h2 k v v2 (List.mem_cons_of_mem _ hv) hv2
    · rw [if_neg hfn]
      apply ih (dictRemove cfg fid) downloaded (keysNodup_dictRemove hnd)
      · intro e he
        have hecfg := mem_dictRemove he
        rcases h1 e hecfg with h | h
        · rcases List.mem_cons.mp h with h | h
          · exfalso
            rw [h] at he
            exact not_mem_dictRemove_self hnd fn he
          · left; exact h
        · right; exact h
      · intro k v v2 hv hv2
        exact h2 k v v2 (List.mem_cons_of_mem _ hv) (mem_dictRemove hv2)

theorem processExistingFiles_mem_disk {manifest : List (String × String)}
    {disk : List String} (hnd : keysNodup manifest) :
    ∀ e ∈ (processExistingFiles manifest disk).1, e.2 ∈ disk := by
  apply pefAux_mem_disk disk manifest manifest [] hnd
  · intro e he
    left; exact he
  · intro k v v2 hv hv2
    exact keysNodup_value_unique hnd hv hv2

/-! ## Claim C2 -/

/-- C2 (counterexample): the execution reuse path (`get_or_create_session`)
hands out an active session WITHOUT purging manifest entries whose backing
files are missing: at a state holding an active session `s` whose manifest
records `f1 ↦ gone.csv` while `gone.csv` is not on disk, acquiring `s`
through `get_or_create_session` returns the session with the stale entry
still in its manifest. (The fall-through `create` parameter is irrelevant:
the existing-id branch is taken.) -/
theorem C2_execution_path_no_reconcile :
    (getOrCreateSession (fun sessions _ => (⟨⟨"d", "d", 0, 0, false, 0⟩, [], []⟩, sessions))
        [("s", ⟨⟨"s", "/tmp/sandbox_sessions/s", 1, 1, false, 0⟩,
                [("f1", "gone.csv")], []⟩)]
        (some "s") 7).1.manifest = [("f1", "gone.csv")] ∧
    "gone.csv" ∉
      (getOrCreateSession (fun sessions _ => (⟨⟨"d", "d", 0, 0, false, 0⟩, [], []⟩, sessions))
        [("s", ⟨⟨"s", "/tmp/sandbox_sessions/s", 1, 1, false, 0⟩,
                [("f1", "gone.csv")], []⟩)]
        (some "s") 7).1.disk := by
  refine ⟨rfl, by decide⟩

/-- C2 (amended): manifest reconciliation happens only on the sessions
endpoint's reuse path: for an acquisition through the existing-id branch of
`create_session_with_files`, every entry remaining in the handed session's
manifest refers to a file present on its disk (stale entries are purged
before and kept out while processing the newly requested urls and files);
`get_or_create_session` (the execution reuse path) instead returns the
active session with its manifest and disk untouched, performing no
reconciliation. -/
theorem C2_reconcile_on_sessions_endpoint_only (dl : String → DlOutcome) (r : SessRec)
    (now : Nat) (fileUrls : List String) (files : List FileItem)
    (hnd : keysNodup r.manifest) :
    (∀ e ∈ (createSessionWithFilesExisting dl r now fileUrls files).1.manifest,
      e.2 ∈ (createSessionWithFilesExisting dl r now fileUrls files).1.disk) ∧
    (∀ create sessions sid r0,
      dictLookup sessions sid = some r0 →
      (getOrCreateSession create sessions (some sid) now).1.manifest = r0.manifest ∧
      (getOrCreateSession create sessions (some sid) now).1.disk = r0.disk) := by
  constructor
  · have hbase : ∀ e ∈ (processExistingFiles r.manifest r.disk).1, e.2 ∈ r.disk :=
      processExistingFiles_mem_disk hnd
    simp only [createSessionWithFilesExisting]
    intro e he
    exact processFilesWithId_inv (processFileUrls_inv hbase) e he
  · intro create sessions sid r0 hlk
    simp [getOrCreateSession, hlk]

/-- Witness for `C2_reconcile_on_sessions_endpoint_only`: the sessions
endpoint's reuse path purges a stale entry, and an intact entry survives
with its file on disk. -/
theorem C2_reconcile_witness :
    (∀ e ∈ (createSessionWithFilesExisting (fun _ => DlOutcome.fail "refused")
        ⟨⟨"s", "/tmp/sandbox_sessions/s", 1, 1, false, 0⟩,
          [("f1", "gone.csv"), ("f2", "kept.csv")], ["kept.csv"]⟩
        7 [] []).1.manifest,
      e.2 ∈ (createSessionWithFilesExisting (fun _ => DlOutcome.fail "refused")
        ⟨⟨"s", "/tmp/sandbox_sessions/s", 1, 1, false, 0⟩,
          [("f1", "gone.csv"), ("f2", "kept.csv")], ["kept.csv"]⟩
        7 [] []).1.disk) ∧
    (getOrCreateSession (fun sessions _ => (⟨⟨"d", "d", 0, 0, false, 0⟩, [], []⟩, sessions))
        [("s", ⟨⟨"s", "/tmp/sandbox_sessions/s", 1, 1, false, 0⟩,
                [("f2", "kept.csv")], ["kept.csv"]⟩)]
        (some "s") 7).1.manifest = [("f2", "kept.csv")] := by
  have h := C2_reconcile_on_sessions_endpoint_only (fun _ => DlOutcome.fail "refused")
    ⟨⟨"s", "/tmp/sandbox_sessions/s", 1, 1, false, 0⟩,
      [("f1", "gone.csv"), ("f2", "kept.csv")], ["kept.csv"]⟩
    7 [] [] (by decide)
  refine ⟨h.1, ?_⟩
  exact (h.2 (fun sessions _ => (⟨⟨"d", "d", 0, 0, false, 0⟩, [], []⟩, sessions))
    [("s", ⟨⟨"s", "/tmp/sandbox_sessions/s", 1, 1, false, 0⟩,
            [("f2", "kept.csv")], ["kept.csv"]⟩)]
    "s" ⟨⟨"s", "/tmp/sandbox_sessions/s", 1, 1, false, 0⟩,
          [("f2", "kept.csv")], ["kept.csv"]⟩ (by decide)).1

/-! ## Claim C9 -/

/-- C9 (counterexample): the MCP tool `terminate_session` does NOT have the
semantics of the core session-termination operation: at a state with one
active non-busy session `s`, the MCP tool merely deletes the map entry —
the session is neither stopped nor returned to the pool (its worker keeps
running and its working directory stays on disk) — while the core
`terminate_session` returns it to the pool, and the HTTP `DELETE` handler
stops it; the three resulting states are pairwise different. -/
theorem C9_mcp_terminate_not_core :
    (mcpTerminateSession
        ⟨[("s", ⟨"s", "/tmp/sandbox_sessions/s", 1, 1, false, 2⟩)], [], [], 10, 1⟩
        "s").1.sessions = [] ∧
    (mcpTerminateSession
        ⟨[("s", ⟨"s", "/tmp/sandbox_sessions/s", 1, 1, false, 2⟩)], [], [], 10, 1⟩
        "s").2 = true ∧
    (mcpTerminateSession
        ⟨[("s", ⟨"s", "/tmp/sandbox_sessions/s", 1, 1, false, 2⟩)], [], [], 10, 1⟩
        "s").1.sessionPool = [] ∧
    (mcpTerminateSession
        ⟨[("s", ⟨"s", "/tmp/sandbox_sessions/s", 1, 1, false, 2⟩)], [], [], 10, 1⟩
        "s").1.stopped = [] ∧
    (terminateSessionCore
        ⟨[("s", ⟨"s", "/tmp/sandbox_sessions/s", 1, 1, false, 2⟩)], [], [], 10, 1⟩
        "s" 5 true).1.sessionPool = [⟨"s", "/tmp/sandbox_sessions/s", 1, 5, false, 0⟩] ∧
    mcpTerminateSession
        ⟨[("s", ⟨"s", "/tmp/sandbox_sessions/s", 1, 1, false, 2⟩)], [], [], 10, 1⟩
        "s" ≠
      terminateSessionCore
        ⟨[("s", ⟨"s", "/tmp/sandbox_sessions/s", 1, 1, false, 2⟩)], [], [], 10, 1⟩
        "s" 5 true ∧
    (httpDeleteSession
        ⟨[("s", ⟨"s", "/tmp/sandbox_sessions/s", 1, 1, false, 2⟩)], [], [], 10, 1⟩
        "s").1.stopped = [⟨"s", "/tmp/sandbox_sessions/s", 1, 1, false, 2⟩] ∧
    mcpTerminateSession
        ⟨[("s", ⟨"s", "/tmp/sandbox_sessions/s", 1, 1, false, 2⟩)], [], [], 10, 1⟩
        "s" ≠
      httpDeleteSession
        ⟨[("s", ⟨"s", "/tmp/sandbox_sessions/s", 1, 1, false, 2⟩)], [], [], 10, 1⟩
        "s" := by
  refine ⟨rfl, rfl, rfl, rfl, ?_, ?_, rfl, ?_⟩ <;> decide

/-- C9 (amended): for an active session id, all three termination paths
remove the id from the active map, but they differ beyond that: the MCP
tool `terminate_session` changes nothing else (no worker stop, no pool
return); the HTTP `DELETE /sessions/{id}` handler stops the session
directly without attempting pool return; the core
`KernelManagerService.terminate_session` attempts pool return and stops
the session only when that fails. -/
theorem C9_termination_paths (st : MgrState) (sid : String) (now : Nat)
    (cleanupOk : Bool) (s : KSession) (h : dictLookup st.sessions sid = some s) :
    (mcpTerminateSession st sid).1.sessions = dictRemove st.sessions sid ∧
    (mcpTerminateSession st sid).1.sessionPool = st.sessionPool ∧
    (mcpTerminateSession st sid).1.stopped = st.stopped ∧
    (mcpTerminateSession st sid).2 = true ∧
    (httpDeleteSession st sid).1.sessions = dictRemove st.sessions sid ∧
    (httpDeleteSession st sid).1.sessionPool = st.sessionPool ∧
    (httpDeleteSession st sid).1.stopped = st.stopped ++ [s] ∧
    (terminateSessionCore st sid now cleanupOk).1.sessions = dictRemove st.sessions sid ∧
    ((terminateSessionCore st sid now cleanupOk).1.sessionPool =
        st.sessionPool ++ [{ s with executionCount := 0, isBusy := false,
                                    lastActivity := now }] ∨
      { s with executionCount := 0, isBusy := false, lastActivity := now } ∈
        (terminateSessionCore st sid now cleanupOk).1.stopped ∨
      s ∈ (terminateSessionCore st sid now cleanupOk).1.stopped) := by
  refine ⟨?_, ?_, ?_, ?_, ?_, ?_, ?_, ?_, ?_⟩
  · simp [mcpTerminateSession, h]
  · simp [mcpTerminateSession, h]
  · simp [mcpTerminateSession, h]
  · simp [mcpTerminateSession, h]
  · simp [httpDeleteSession, h]
  · simp [httpDeleteSession, h]
  · simp [httpDeleteSession, h]
  · simp only [terminateSessionCore, h, returnSessionToPool]
    by_cases hspace : st.sessionPool.length < st.sessionPoolSize
    · rw [if_pos hspace]
      cases cleanupOk <;> simp
    · rw [if_neg hspace]
      simp
  · simp only [terminateSessionCore, h, returnSessionToPool]
    by_cases hspace : st.sessionPool.length < st.sessionPoolSize
    · rw [if_pos hspace]
      cases cleanupOk
      · right; left; simp
      · left; simp
    · rw [if_neg hspace]
      right; right; simp

/-- Witness for `C9_termination_paths` at a one-session state with pool
space. -/
theorem C9_termination_paths_witness :
    (mcpTerminateSession
        ⟨[("t", ⟨"t", "/tmp/sandbox_sessions/t", 2, 2, false, 4⟩)], [], [], 10, 1⟩
        "t").1.sessions =
      dictRemove [("t", ⟨"t", "/tmp/sandbox_sessions/t", 2, 2, false, 4⟩)] "t" ∧
    (mcpTerminateSession
        ⟨[("t", ⟨"t", "/tmp/sandbox_sessions/t", 2, 2, false, 4⟩)], [], [], 10, 1⟩
        "t").1.sessionPool = [] ∧
    (mcpTerminateSession
        ⟨[("t", ⟨"t", "/tmp/sandbox_sessions/t", 2, 2, false, 4⟩)], [], [], 10, 1⟩
        "t").1.stopped = [] := by
  have h := C9_termination_paths
    ⟨[("t", ⟨"t", "/tmp/sandbox_sessions/t", 2, 2, false, 4⟩)], [], [], 10, 1⟩
    "t" 9 true ⟨"t", "/tmp/sandbox_sessions/t", 2, 2, false, 4⟩ (by decide)
  exact ⟨h.1, h.2.1, h.2.2.1⟩

/-! ## Claim C10 -/

/-- C10 (counterexample): after a session whose working directory holds a
top-level file and a subdirectory is returned to the pool, the subdirectory
does survive in that (old) directory — but the pooled session handed to
the next client is rebound to the fresh directory of the NEW session id,
which is empty: the previous client's directory tree does not persist into
the working directory handed to the next client. -/
theorem C10_reuse_gets_fresh_workdir :
    dictLookup
        (returnSessionToPoolFs
          ⟨[("/tmp/sandbox_sessions/old",
              [("data.txt", FsEntry.file), ("sub", FsEntry.subdir ["b.txt"])])],
            [("/tmp/sandbox_sessions/old", [("f1", "data.txt")])], [], 1⟩
          ⟨"old", "/tmp/sandbox_sessions/old", 1, 1, false, 3⟩).fs
        "/tmp/sandbox_sessions/old" = some [("sub", FsEntry.subdir ["b.txt"])] ∧
    ((reusePooledSession
        (returnSessionToPoolFs
          ⟨[("/tmp/sandbox_sessions/old",
              [("data.txt", FsEntry.file), ("sub", FsEntry.subdir ["b.txt"])])],
            [("/tmp/sandbox_sessions/old", [("f1", "data.txt")])], [], 1⟩
          ⟨"old", "/tmp/sandbox_sessions/old", 1, 1, false, 3⟩)
        "new").map (fun p => (p.2.cwd, dictLookup p.1.fs p.2.cwd))) =
      some ("/tmp/sandbox_sessions/new", some []) := by
  exact ⟨by decide, by decide⟩

/-- C10 (amended): on pool return only the top-level regular files of the
session's working directory are deleted and its manifest is cleared —
every subdirectory entry survives there with its contents — but the tree
survives at the OLD directory on disk: a pooled session dispensed to the
next client is rebound to `/tmp/sandbox_sessions/<new_id>`, so the new
client's working directory is freshly created (empty) whenever that path
did not already exist, and it coincides with the old, tree-bearing
directory exactly when the new session id reproduces the old path (same
id). -/
theorem C10_pool_return_frame (st : PoolFsState) (s : KSession) (newId : String)
    (hspace : st.pool.length < st.poolSize) :
    (∀ name sub, (name, FsEntry.subdir sub) ∈ (dictLookup st.fs s.cwd).getD [] →
      (name, FsEntry.subdir sub) ∈
        (dictLookup (returnSessionToPoolFs st s).fs s.cwd).getD []) ∧
    (∀ name, (name, FsEntry.file) ∉
      (dictLookup (returnSessionToPoolFs st s).fs s.cwd).getD []) ∧
    dictLookup (returnSessionToPoolFs st s).manifests s.cwd = some [] ∧
    (∀ st2 s2, reusePooledSession (returnSessionToPoolFs st s) newId = some (st2, s2) →
      s2.cwd = sessionDirOf newId ∧
      (dictLookup (returnSessionToPoolFs st s).fs (sessionDirOf newId) = none →
        dictLookup st2.fs s2.cwd = some []) ∧
      (sessionDirOf newId = s.cwd →
        dictLookup st2.fs s2.cwd =
          some (clearSessionDir ((dictLookup st.fs s.cwd).getD [])))) := by
  have hfs : dictLookup (returnSessionToPoolFs st s).fs s.cwd =
      some (clearSessionDir ((dictLookup st.fs s.cwd).getD [])) := by
    simp only [returnSessionToPoolFs, if_pos hspace]
    exact dictLookup_dictInsert_self _ _ _
  refine ⟨?_, ?_, ?_, ?_⟩
  · intro name sub hmem
    rw [hfs]
    simp only [Option.getD_some]
    exact List.mem_filter.mpr ⟨hmem, rfl⟩
  · intro name
    rw [hfs]
    simp only [Option.getD_some]
    intro hmem
    simpa using (List.mem_filter.mp hmem).2
  · simp only [returnSessionToPoolFs, if_pos hspace]
    exact dictLookup_dictInsert_self _ _ _
  · intro st2 s2 hre
    cases hpool : (returnSessionToPoolFs st s).pool with
    | nil => simp [reusePooledSession, hpool] at hre
    | cons h0 restPool =>
      simp only [reusePooledSession, hpool] at hre
      injection hre with hre
      injection hre with hst2 hs2
      refine ⟨by rw [hs2.symm], ?_, ?_⟩
      · intro hnone
        rw [hst2.symm, hs2.symm]
        simp only [hnone, Option.isSome_none, Bool.false_eq_true, if_false]
        exact dictLookup_dictInsert_self _ _ _
      · intro hsame
        rw [hst2.symm, hs2.symm]
        simp only [hsame, hfs, Option.isSome_some, if_true]

/-- Witness for `C10_pool_return_frame` at a directory holding one file and
one subdirectory, reused under the fresh id `new`. -/
theorem C10_pool_return_frame_witness :
    dictLookup
        (returnSessionToPoolFs
          ⟨[("/tmp/sandbox_sessions/o2",
              [("a.txt", FsEntry.file), ("d", FsEntry.subdir ["c.txt"])])],
            [("/tmp/sandbox_sessions/o2", [("f1", "a.txt")])], [], 1⟩
          ⟨"o2", "/tmp/sandbox_sessions/o2", 1, 1, false, 3⟩).manifests
        "/tmp/sandbox_sessions/o2" = some [] ∧
    ("d", FsEntry.subdir ["c.txt"]) ∈
      (dictLookup
        (returnSessionToPoolFs
          ⟨[("/tmp/sandbox_sessions/o2",
              [("a.txt", FsEntry.file), ("d", FsEntry.subdir ["c.txt"])])],
            [("/tmp/sandbox_sessions/o2", [("f1", "a.txt")])], [], 1⟩
          ⟨"o2", "/tmp/sandbox_sessions/o2", 1, 1, false, 3⟩).fs
        "/tmp/sandbox_sessions/o2").getD [] := by
  have h := C10_pool_return_frame
    ⟨[("/tmp/sandbox_sessions/o2",
        [("a.txt", FsEntry.file), ("d", FsEntry.subdir ["c.txt"])])],
      [("/tmp/sandbox_sessions/o2", [("f1", "a.txt")])], [], 1⟩
    ⟨"o2", "/tmp/sandbox_sessions/o2", 1, 1, false, 3⟩ "n2" (by decide)
  exact ⟨h.2.2.1, h.1 "d" ["c.txt"] (by decide)⟩

/-! ## Oldest-session selection lemmas -/

theorem pickOldestGo_spec (l : List (String × KSession)) :
    ∀ best : String × KSession,
      (pickOldestGo best l = best ∨ pickOldestGo best l ∈ l) ∧
      (pickOldestGo best l).2.createdAt ≤ best.2.createdAt ∧
      ∀ x ∈ l, (pickOldestGo best l).2.createdAt ≤ x.2.createdAt := by
  induction l with
  | nil =>
    intro best
    exact ⟨Or.inl rfl, le_refl _, by simp⟩
  | cons hd tl ih =>
    intro best
    simp only [pickOldestGo]
    by_cases hlt : hd.2.createdAt < best.2.createdAt
    · rw [if_pos hlt]
      rcases ih hd with ⟨hmem, hle, hall⟩
      refine ⟨?_, le_trans hle (le_of_lt hlt), ?_⟩
      · right
        rcases hmem with h | h
        · rw [h]; exact List.mem_cons_self _ _
        · exact List.mem_cons_of_mem _ h
      · intro x hx
        rcases List.mem_cons.mp hx with h | h
        · rw [h]; exact hle
        · exact hall x h
    · rw [if_neg hlt]
      rcases ih best with ⟨hmem, hle, hall⟩
      refine ⟨?_, hle, ?_⟩
      · rcases hmem with h | h
        · exact Or.inl h
        · exact Or.inr (List.mem_cons_of_mem _ h)
      · intro x hx
        rcases List.mem_cons.mp hx with h | h
        · rw [h]
          exact le_trans hle (Nat.le_of_not_lt hlt)
        · exact hall x h

theorem pickOldest_spec {l : List (String × KSession)} {e : String × KSession}
    (h : pickOldest l = some e) :
    e ∈ l ∧ ∀ x ∈ l, e.2.createdAt ≤ x.2.createdAt := by
  cases l with
  | nil => simp [pickOldest] at h
  | cons hd tl =>
    simp only [pickOldest] at h
    injection h with h
    subst h
    rcases pickOldestGo_spec tl hd with ⟨hmem, hle, hall⟩
    constructor
    · rcases hmem with h | h
      · rw [h]; exact List.mem_cons_self _ _
      · exact List.mem_cons_of_mem _ h
    · intro x hx
      rcases List.mem_cons.mp hx with h | h
      · rw [h]; exact hle
      · exact hall x h

theorem pickOldest_isSome {l : List (String × KSession)} (h : l ≠ []) :
    (pickOldest l).isSome := by
  cases l with
  | nil => exact absurd rfl h
  | cons hd tl => simp [pickOldest]

/-- Case analysis of `_cleanup_oldest_session`: with every active session
busy it is the identity; otherwise it removes exactly the picked oldest
non-busy session from the active map and either appends its reset form to
the pool or stops it (reset or original form in the stopped trace). -/
theorem cleanupOldestSession_cases (st : MgrState) (now : Nat) (cleanupOk : Bool) :
    (st.sessions.filter (fun p => !p.2.isBusy) = [] →
      cleanupOldestSession st now cleanupOk = st) ∧
    (∀ oid oldest,
      pickOldest (st.sessions.filter (fun p => !p.2.isBusy)) = some (oid, oldest) →
      (cleanupOldestSession st now cleanupOk).sessions = dictRemove st.sessions oid ∧
      ((cleanupOldestSession st now cleanupOk).sessionPool =
          st.sessionPool ++
            [{ oldest with executionCount := 0, isBusy := false, lastActivity := now }] ∨
        { oldest with executionCount := 0, isBusy := false, lastActivity := now } ∈
          (cleanupOldestSession st now cleanupOk).stopped ∨
        oldest ∈ (cleanupOldestSession st now cleanupOk).stopped)) := by
  constructor
  · intro hidle
    simp [cleanupOldestSession, hidle, pickOldest]
  · intro oid oldest hpick
    simp only [cleanupOldestSession, hpick, returnSessionToPool]
    by_cases hspace : st.sessionPool.length < st.sessionPoolSize
    · rw [if_pos hspace]
      cases cleanupOk
      · simp
      · simp
    · rw [if_neg hspace]
      simp

/-! ## Claim C1 -/

/-- C1 (confirmed): a completed new-session acquisition made while the
number of active sessions is at least `capacity_max` (with the chdir
priming and session start succeeding, i.e. the acquisition hands a session
back): when some active session is non-busy, the eviction picks a non-busy
session with the smallest `created_at` among all non-busy active sessions,
removes exactly that one from the active map, and attempts pool return
(appending its reset form to the pool, or stopping it on cleanup failure
or a full pool); when every active session is busy nothing is evicted and
the active map only grows by the new entry; in all cases the new id ends
up in the active map. -/
theorem C1_capacity_eviction (st : MgrState) (newId : String) (now : Nat)
    (cleanupOk : Bool) (hcap : st.sessions.length ≥ st.maxKernels)
    (hnew : dictLookup st.sessions newId = none) :
    (createNewSession st newId now cleanupOk true true).2.isSome ∧
    (dictLookup (createNewSession st newId now cleanupOk true true).1.sessions
      newId).isSome ∧
    (st.sessions.filter (fun p => !p.2.isBusy) ≠ [] →
      (pickOldest (st.sessions.filter (fun p => !p.2.isBusy))).isSome) ∧
    (st.sessions.filter (fun p => !p.2.isBusy) = [] →
      ∃ s2, (createNewSession st newId now cleanupOk true true).1.sessions =
          st.sessions ++ [(newId, s2)] ∧
        (createNewSession st newId now cleanupOk true true).2 = some s2) ∧
    (∀ oid oldest,
      pickOldest (st.sessions.filter (fun p => !p.2.isBusy)) = some (oid, oldest) →
      (oid, oldest) ∈ st.sessions ∧
      oldest.isBusy = false ∧
      (∀ p ∈ st.sessions, p.2.isBusy = false → oldest.createdAt ≤ p.2.createdAt) ∧
      (∃ s2, (createNewSession st newId now cleanupOk true true).1.sessions =
          dictRemove st.sessions oid ++ [(newId, s2)] ∧
        (createNewSession st newId now cleanupOk true true).2 = some s2) ∧
      ((cleanupOldestSession st now cleanupOk).sessionPool =
          st.sessionPool ++
            [{ oldest with executionCount := 0, isBusy := false, lastActivity := now }] ∨
        { oldest with executionCount := 0, isBusy := false, lastActivity := now } ∈
          (cleanupOldestSession st now cleanupOk).stopped ∨
        oldest ∈ (cleanupOldestSession st now cleanupOk).stopped)) := by
  have hmain : ∃ s2,
      (createNewSession st newId now cleanupOk true true).1.sessions =
        dictInsert (cleanupOldestSession st now cleanupOk).sessions newId s2 ∧
      (createNewSession st newId now cleanupOk true true).2 = some s2 := by
    simp only [createNewSession, if_pos hcap]
    cases hpool : (cleanupOldestSession st now cleanupOk).sessionPool with
    | nil => exact ⟨_, rfl, rfl⟩
    | cons s restPool => exact ⟨_, rfl, rfl⟩
  rcases hmain with ⟨s2, hsess, hres⟩
  refine ⟨?_, ?_, ?_, ?_, ?_⟩
  · rw [hres]; rfl
  · rw [hsess, dictLookup_dictInsert_self]; rfl
  · exact fun h => pickOldest_isSome h
  · intro hidle
    have hid : cleanupOldestSession st now cleanupOk = st :=
      (cleanupOldestSession_cases st now cleanupOk).1 hidle
    refine ⟨s2, ?_, hres⟩
    rw [hsess, hid, dictInsert_eq_append hnew]
  · intro oid oldest hpick
    have hcase := (cleanupOldestSession_cases st now cleanupOk).2 oid oldest hpick
    have hmem := pickOldest_spec hpick
    have hmemfil := List.mem_filter.mp hmem.1
    refine ⟨hmemfil.1, by simpa using hmemfil.2, ?_, ⟨s2, ?_, hres⟩, hcase.2⟩
    · intro p hp hnb
      have hpfil : p ∈ st.sessions.filter (fun q => !q.2.isBusy) :=
        List.mem_filter.mpr ⟨hp, by simp [hnb]⟩
      exact hmem.2 p hpfil
    · rw [hsess, hcase.1, dictInsert_eq_append (dictLookup_dictRemove_none hnew)]

/-- Witness for `C1_capacity_eviction`: a full two-session active map
("a" created later than "b", both non-busy, empty pool of target size 1)
acquiring the fresh id `new`: the conclusions are applied at that state. -/
theorem C1_capacity_eviction_witness :
    (createNewSession
        ⟨[("a", ⟨"a", "/tmp/sandbox_sessions/a", 5, 5, false, 1⟩),
          ("b", ⟨"b", "/tmp/sandbox_sessions/b", 3, 3, false, 1⟩)], [], [], 2, 1⟩
        "new" 10 true true true).2.isSome ∧
    (dictLookup
        (createNewSession
          ⟨[("a", ⟨"a", "/tmp/sandbox_sessions/a", 5, 5, false, 1⟩),
            ("b", ⟨"b", "/tmp/sandbox_sessions/b", 3, 3, false, 1⟩)], [], [], 2, 1⟩
          "new" 10 true true true).1.sessions "new").isSome ∧
    ("b", (⟨"b", "/tmp/sandbox_sessions/b", 3, 3, false, 1⟩ : KSession)) ∈
      ([("a", ⟨"a", "/tmp/sandbox_sessions/a", 5, 5, false, 1⟩),
        ("b", ⟨"b", "/tmp/sandbox_sessions/b", 3, 3, false, 1⟩)] :
        List (String × KSession)) ∧
    (∃ s2,
      (createNewSession
          ⟨[("a", ⟨"a", "/tmp/sandbox_sessions/a", 5, 5, false, 1⟩),
            ("b", ⟨"b", "/tmp/sandbox_sessions/b", 3, 3, false, 1⟩)], [], [], 2, 1⟩
          "new" 10 true true true).1.sessions =
        dictRemove
          [("a", ⟨"a", "/tmp/sandbox_sessions/a", 5, 5, false, 1⟩),
           ("b", ⟨"b", "/tmp/sandbox_sessions/b", 3, 3, false, 1⟩)] "b" ++
          [("new", s2)] ∧
      (createNewSession
          ⟨[("a", ⟨"a", "/tmp/sandbox_sessions/a", 5, 5, false, 1⟩),
            ("b", ⟨"b", "/tmp/sandbox_sessions/b", 3, 3, false, 1⟩)], [], [], 2, 1⟩
          "new" 10 true true true).2 = some s2) := by
  have h := C1_capacity_eviction
    ⟨[("a", ⟨"a", "/tmp/sandbox_sessions/a", 5, 5, false, 1⟩),
      ("b", ⟨"b", "/tmp/sandbox_sessions/b", 3, 3, false, 1⟩)], [], [], 2, 1⟩
    "new" 10 true (by decide) (by decide)
  have h5 := h.2.2.2.2 "b" ⟨"b", "/tmp/sandbox_sessions/b", 3, 3, false, 1⟩ (by decide)
  exact ⟨h.1, h.2.1, h5.1, h5.2.2.2.1⟩

end SandboxMcp
